import Mathlib

/-!
Shallow embedding of the sampling and aggregation core of `ktop.py`
(a terminal resource monitor).  Python floats are modelled by `ℚ`,
Python dicts by association lists, and external reads (files,
`psutil`, `journalctl`, NVML) by explicit parameters; a read that
raises an exception caught at its call site is modelled by `none`.
-/

namespace Ktop

/-! ### MetricHistory: `deque(maxlen=HISTORY_LEN)` (ktop.py lines 144, 415-419) -/

/-- History capacity, `HISTORY_LEN = 300` in the source. -/
def HISTORY_LEN : Nat := 300

/-- One `deque.append` on a deque with `maxlen = cap`: the new value goes to
the right and, if the buffer is full, the oldest (leftmost) sample is evicted. -/
def mhAppend (cap : Nat) (h : List ℚ) (v : ℚ) : List ℚ :=
  (h ++ [v]).drop ((h ++ [v]).length - cap)

/-- Append a whole sequence of samples, left to right. -/
def mhAppendAll (cap : Nat) (h : List ℚ) (vs : List ℚ) : List ℚ :=
  vs.foldl (mhAppend cap) h

/-! ### ProcessScanner: `KTop._scan_procs` (ktop.py lines 650-711) -/

/-- The fields `_scan_procs` reads from `/proc/<pid>/stat`: pid, the process
name between parentheses, `utime` (field 14), `stime` (field 15) and the
resident set size in pages (field 24). -/
structure ProcStat where
  pid : Nat
  name : String
  utime : Nat
  stime : Nat
  rssPages : Nat
deriving DecidableEq

/-- The per-process dict built at ktop.py lines 688-692. -/
structure ProcRecord where
  pid : Nat
  name : String
  cpu_percent : ℚ
  memory_percent : ℚ
  rss : Nat
deriving DecidableEq

/-- Python `cpu_prev.get(pid, dflt)` over the baseline dict, modelled as an
association list from pid to cumulative ticks. -/
def lookupTicks (prev : List (Nat × Nat)) (pid dflt : Nat) : Nat :=
  match prev.find? (fun kv => kv.1 == pid) with
  | some kv => kv.2
  | none => dflt

/-- Python `cpu_prev[pid] = v`: replace the binding if present, else add it. -/
def prevInsert (prev : List (Nat × Nat)) (pid v : Nat) : List (Nat × Nat) :=
  if prev.any (fun kv => kv.1 == pid) then
    prev.map (fun kv => if kv.1 == pid then (pid, v) else kv)
  else prev ++ [(pid, v)]

/-- Build one process record (ktop.py lines 678-692):
`rss = pages * page_size`, `mem_pct = rss / total_mem * 100 if total_mem else 0`,
`cpu_delta = cpu_total - cpu_prev.get(pid, cpu_total)` and
`cpu_pct = (cpu_delta / ct) / dt * 100 if dt > 0 else 0`. -/
def mkRecord (totalMem pageSize clockTicks : Nat) (dt : ℚ)
    (prev : List (Nat × Nat)) (s : ProcStat) : ProcRecord :=
  let rss := s.rssPages * pageSize
  let memPct : ℚ := if totalMem ≠ 0 then (rss : ℚ) / (totalMem : ℚ) * 100 else 0
  let cpuTotal := s.utime + s.stime
  let prevTicks := lookupTicks prev s.pid cpuTotal
  let cpuDelta : ℤ := (cpuTotal : ℤ) - (prevTicks : ℤ)
  let cpuPct : ℚ := if 0 < dt then ((cpuDelta : ℚ) / (clockTicks : ℚ)) / dt * 100 else 0
  { pid := s.pid, name := s.name.take 28,
    cpu_percent := cpuPct, memory_percent := memPct, rss := rss }

/-- One iteration of the `/proc` loop (ktop.py lines 666-694): pid 0 is
skipped, otherwise a record is appended and the live baseline dict is
updated in place with the current cumulative ticks. -/
def scanStep (totalMem pageSize clockTicks : Nat) (dt : ℚ)
    (acc : List ProcRecord × List (Nat × Nat)) (s : ProcStat) :
    List ProcRecord × List (Nat × Nat) :=
  if s.pid = 0 then acc
  else
    (acc.1 ++ [mkRecord totalMem pageSize clockTicks dt acc.2 s],
     prevInsert acc.2 s.pid (s.utime + s.stime))

/-- Python `sorted(procs, key=key, reverse=True)`: a stable sort placing
larger keys first; elements with equal keys keep their original order. -/
def sortByKeyDesc (key : ProcRecord → ℚ) (l : List ProcRecord) : List ProcRecord :=
  List.insertionSort (fun a b => key b ≤ key a) l

/-- Outcome of one full (non-throttled) scan. -/
structure ScanResult where
  byMem : List ProcRecord
  byCpu : List ProcRecord
  newPrev : List (Nat × Nat)
deriving DecidableEq

/-- The body of `_scan_procs` after its throttle check (ktop.py lines
660-699): walk the `/proc` listing accumulating records and baseline
updates, prune baselines of pids no longer present, and rank the records
descending by memory and by CPU, keeping the top 10 of each.  Entries of
`listing` are the stat files that were read successfully; a process that
vanished mid-read is simply absent. -/
def scanProcs (totalMem pageSize clockTicks : Nat) (dt : ℚ)
    (prev : List (Nat × Nat)) (listing : List ProcStat) : ScanResult :=
  let acc := listing.foldl (scanStep totalMem pageSize clockTicks dt) ([], prev)
  let procs := acc.1
  let current := procs.map (fun p => p.pid)
  { byMem := (sortByKeyDesc (fun p => p.memory_percent) procs).take 10,
    byCpu := (sortByKeyDesc (fun p => p.cpu_percent) procs).take 10,
    newPrev := acc.2.filter (fun kv => current.contains kv.1) }

/-! ### NetworkRateEstimator: `KTop._sample_net` (ktop.py lines 503-519) -/

/-- Mutable network state held by the collector: last cumulative byte
counters, last sample time, the running ceiling `net_max_speed`
(initially `1.0`) and the two rate histories. -/
structure NetState where
  lastSent : ℚ
  lastRecv : ℚ
  lastTime : ℚ
  netMaxSpeed : ℚ
  upHist : List ℚ
  downHist : List ℚ
deriving DecidableEq

/-- One call of `_sample_net`, given the current cumulative counters and the
monotonic clock: `dt = now - last` guarded to `1.0` when non-positive,
`up/down = Δbytes / dt`, `net_max_speed = max(net_max_speed, up, down, 1.0)`,
both rates appended to their histories.  Returns `(up, down)` and the
updated state. -/
def sample_net (st : NetState) (sent recv now : ℚ) : (ℚ × ℚ) × NetState :=
  let dt0 := now - st.lastTime
  let dt := if dt0 ≤ 0 then 1 else dt0
  let up := (sent - st.lastSent) / dt
  let down := (recv - st.lastRecv) / dt
  let peak := max (max (max st.netMaxSpeed up) down) 1
  ((up, down),
   { lastSent := sent, lastRecv := recv, lastTime := now, netMaxSpeed := peak,
     upHist := mhAppend HISTORY_LEN st.upHist up,
     downHist := mhAppend HISTORY_LEN st.downHist down })

/-! ### ThermalMonitor: `KTop._sample_temps` CPU/memory groups
    (ktop.py lines 521-545) -/

/-- One psutil temperature sensor: current reading plus optional `high`
and `critical` thresholds (`None` is modelled by `none`). -/
structure Sensor where
  current : ℚ
  high : Option ℚ
  critical : Option ℚ
deriving DecidableEq

/-- Python truthiness of an optional float threshold: `None` and `0.0`
are falsy. -/
def truthy : Option ℚ → Bool
  | none => false
  | some x => decide (x ≠ 0)

/-- The sensor lists under a given key of the `psutil.sensors_temperatures()`
dict, or `[]` when the key is absent. -/
def sensorsFor (d : List (String × List Sensor)) (k : String) : List Sensor :=
  match d.find? (fun p => p.1 == k) with
  | some p => p.2
  | none => []

/-- The keys scanned for the CPU group (ktop.py line 527). -/
def cpuSensorKeys : List String :=
  ["coretemp", "k10temp", "cpu_thermal", "zenpower", "acpitz"]

/-- The keys scanned for the memory group (ktop.py line 537). -/
def memSensorKeys : List String := ["SODIMM", "dimm", "memory"]

/-- One CPU-group sensor (ktop.py lines 529-536): the running current is the
max seen so far; the running threshold is raised to `s.critical` when that
is truthy and greater, else to `s.high` when that is truthy and greater. -/
def cpuStep (acc : Option ℚ × ℚ) (s : Sensor) : Option ℚ × ℚ :=
  let cur := match acc.1 with
    | none => some s.current
    | some c => if c < s.current then some s.current else some c
  let mx :=
    if truthy s.critical && decide (acc.2 < s.critical.getD 0) then s.critical.getD 0
    else if truthy s.high && decide (acc.2 < s.high.getD 0) then s.high.getD 0
    else acc.2
  (cur, mx)

/-- One memory-group sensor (ktop.py lines 539-543): the running current is
the max seen so far; any truthy `s.critical` overwrites the threshold. -/
def memStep (acc : Option ℚ × ℚ) (s : Sensor) : Option ℚ × ℚ :=
  let cur := match acc.1 with
    | none => some s.current
    | some c => if c < s.current then some s.current else some c
  let mx := if truthy s.critical then s.critical.getD 0 else acc.2
  (cur, mx)

/-- The CPU part of `_sample_temps`: fold `cpuStep` over the sensors of each
CPU key in order, starting from `(None, 100.0)`. -/
def sample_cpu_temps (d : List (String × List Sensor)) : Option ℚ × ℚ :=
  cpuSensorKeys.foldl (fun acc k => (sensorsFor d k).foldl cpuStep acc) (none, 100)

/-- The memory part of `_sample_temps`: fold `memStep` over the sensors of
each memory key in order, starting from `(None, 85.0)`. -/
def sample_mem_temps (d : List (String × List Sensor)) : Option ℚ × ℚ :=
  memSensorKeys.foldl (fun acc k => (sensorsFor d k).foldl memStep acc) (none, 85)

/-- All sensors of a group, in the order the source visits them. -/
def groupSensors (keys : List String) (d : List (String × List Sensor)) : List Sensor :=
  (keys.map (sensorsFor d)).flatten

/-- Modelled from the spec for comparison with the source: the spec's
threshold rule for a thermal group, "the sensor-reported critical value if
present, else the sensor-reported high value, else the static platform
fallback", applied to the max-reporting sensor of the group. -/
def spec_group_threshold (keys : List String) (d : List (String × List Sensor))
    (fallback : ℚ) : ℚ :=
  let ss := groupSensors keys d
  match ss.foldl (fun acc s =>
      match acc with
      | none => some s
      | some m => if m.current < s.current then some s else some m) none with
  | none => fallback
  | some m =>
    match m.critical with
    | some c => c
    | none => match m.high with
      | some h => h
      | none => fallback

/-! ### EventWatcher: `KTop._check_oom` (ktop.py lines 722-788) -/

/-- Mutable OOM-watcher state: the monotonic time of the last underlying
query and the cached result.  The source caches a formatted string; here
the parsed `(epoch timestamp, display name)` pair is kept and the
`strftime` presentation is elided. -/
structure OomState where
  lastCheck : ℚ
  lastStr : Option (ℚ × String)
deriving DecidableEq

/-- The candidate list of ktop.py lines 740-779.  `kernel` is the parsed
`(timestamp, process name)` from the kernel-log query, `oomd` the parsed
`(timestamp, cleaned scope name)` from the `systemd-oomd` query; a query
that failed, timed out, or matched nothing contributes `none`. -/
def oomCandidates (kernel oomd : Option (ℚ × String)) : List (ℚ × String) :=
  (match kernel with | some k => [k] | none => []) ++
  (match oomd with | some o => [o] | none => [])

/-- Lines 781-788: sort the candidates by timestamp, newest first (Python's
stable `sort` with `reverse=True`), and keep the head, or `None` when the
list is empty. -/
def check_oom_fresh (kernel oomd : Option (ℚ × String)) : Option (ℚ × String) :=
  (List.insertionSort (fun a b : ℚ × String => b.1 ≤ a.1)
    (oomCandidates kernel oomd)).head?

/-- The whole of `_check_oom` (non-simulation path): within 5 time units of
the previous query the cached value is returned unchanged; otherwise both
queries run and the cache is overwritten with the fresh result. -/
def check_oom (st : OomState) (now : ℚ) (kernel oomd : Option (ℚ × String)) :
    Option (ℚ × String) × OomState :=
  if now - st.lastCheck < 5 then (st.lastStr, st)
  else
    let res := check_oom_fresh kernel oomd
    (res, { lastCheck := now, lastStr := res })

/-! ### GpuBackend: `_detect_amd_gpus`, NVML init, `_gpu_info`
    (ktop.py lines 59-138, 427-451, 579-648) -/

/-- The sysfs reads `_detect_amd_gpus` performs for one `/sys/class/drm/cardN`
candidate.  `Option String` fields are file contents after `.strip()`, with
`none` for an `OSError`; `Option Nat` models `int(f.read().strip())` with
`none` for an `OSError` or `ValueError`; the `Bool` fields are
`os.path.isfile` probes, and `hwmonList` is the `os.listdir` of the `hwmon`
directory (`none` when the directory is absent or unreadable). -/
structure CardFs where
  vendor : Option String
  productName : Option String
  productDescription : Option String
  deviceId : Option String
  hasGpuBusy : Bool
  hasVramTotal : Bool
  hasVramUsed : Bool
  vramTotalRead : Option Nat
  hwmonList : Option (List String)
  hasTemp1Input : Bool
  hasTemp1Crit : Bool
deriving DecidableEq

/-- The cached card-info dict appended at ktop.py lines 126-137. -/
structure AmdCard where
  name : String
  hasUtil : Bool
  hasVram : Bool
  vramTotalBytes : Nat
  hasTemp : Bool
  hasTempCrit : Bool
deriving DecidableEq

/-- Name resolution (ktop.py lines 73-88): first non-empty read among
`product_name` then `product_description`; if neither breaks the loop, the
`for`-`else` falls back to the PCI device id, or to the default name. -/
def amdNameDev (c : CardFs) : String :=
  match c.deviceId with
  | some d => "AMD GPU [" ++ d ++ "]"
  | none => "AMD GPU"

/-- Second leg of the name loop: `product_description`, else device fallback. -/
def amdName2 (c : CardFs) : String :=
  match c.productDescription with
  | some n => if n ≠ "" then n else amdNameDev c
  | none => amdNameDev c

/-- First leg of the name loop: `product_name`, else `amdName2`. -/
def amdName (c : CardFs) : String :=
  match c.productName with
  | some n => if n ≠ "" then n else amdName2 c
  | none => amdName2 c

/-- Build one cached card dict (ktop.py lines 90-137): `has_util` from the
`gpu_busy_percent` probe; `has_vram` from both VRAM probes, demoted to
`False` (total left at 0) when the total fails to parse; the temperature
paths from the first (sorted) hwmon entry when one exists. -/
def mkAmdCard (c : CardFs) : AmdCard :=
  let hasVram0 := c.hasVramTotal && c.hasVramUsed
  let vt : Bool × Nat :=
    if hasVram0 then
      match c.vramTotalRead with
      | some v => (true, v)
      | none => (false, 0)
    else (false, 0)
  let temps : Bool × Bool :=
    match c.hwmonList with
    | some hs => if hs ≠ [] then (c.hasTemp1Input, c.hasTemp1Crit) else (false, false)
    | none => (false, false)
  { name := amdName c, hasUtil := c.hasGpuBusy,
    hasVram := vt.1, vramTotalBytes := vt.2,
    hasTemp := temps.1, hasTempCrit := temps.2 }

/-- `_detect_amd_gpus` (ktop.py lines 59-138): keep exactly the candidates
whose vendor file reads `0x1002`; an unreadable vendor file skips the card. -/
def detect_amd_gpus (cards : List CardFs) : List AmdCard :=
  cards.filterMap (fun c =>
    if c.vendor = some "0x1002" then some (mkAmdCard c) else none)

/-- Outcome of the NVML initialization block (ktop.py lines 432-441):
`none` when the library is absent (`_PYNVML` false) or `nvmlInit` or
`nvmlDeviceGetCount` raised; `some n` for a successful init reporting
`n` devices. -/
def nvidiaCount (initRes : Option Nat) : Nat := initRes.getD 0

/-- `self.nvidia_ok` after `__init__`. -/
def nvidia_ok (initRes : Option Nat) : Bool := initRes.isSome

/-- `self.gpu_count` after `__init__` (ktop.py line 450). -/
def gpu_count (initRes : Option Nat) (cards : List CardFs) : Nat :=
  nvidiaCount initRes + (detect_amd_gpus cards).length

/-- The unified per-device dict built by `_gpu_info` / `_amd_gpu_info`. -/
structure GpuInfo where
  id : Nat
  name : String
  util : ℚ
  memUsedGb : ℚ
  memTotalGb : ℚ
  memPct : ℚ
deriving DecidableEq

/-- One successful NVML sample for a device (ktop.py lines 585-590). -/
structure NvSample where
  name : String
  utilGpu : ℚ
  memUsed : Nat
  memTotal : Nat
deriving DecidableEq

/-- Build the NVIDIA device dict (ktop.py lines 591-603), guarding the
memory percentage against a zero total. -/
def nvDeviceInfo (i : Nat) (s : NvSample) : GpuInfo :=
  let memPct : ℚ := if s.memTotal ≠ 0 then (s.memUsed : ℚ) / (s.memTotal : ℚ) * 100 else 0
  { id := i, name := s.name, util := s.utilGpu,
    memUsedGb := (s.memUsed : ℚ) / 1024 ^ 3,
    memTotalGb := (s.memTotal : ℚ) / 1024 ^ 3,
    memPct := memPct }

/-- The per-cycle sysfs reads of `_amd_gpu_info` for one card; `none`
models an `OSError`/`ValueError` caught at the read. -/
structure AmdReads where
  utilRead : Option Nat
  vramUsedRead : Option Nat
deriving DecidableEq

/-- Build one AMD device dict (ktop.py lines 613-645): utilization and used
VRAM read only when the capability was cached at discovery, falling back to
0 on a failed read; memory percentage guarded against a zero total. -/
def amdDeviceInfo (idx : Nat) (card : AmdCard) (r : AmdReads) : GpuInfo :=
  let util : ℚ := if card.hasUtil then ((r.utilRead.getD 0 : Nat) : ℚ) else 0
  let memUsed : Nat := if card.hasVram then r.vramUsedRead.getD 0 else 0
  let memTotal := card.vramTotalBytes
  let memPct : ℚ := if memTotal ≠ 0 then (memUsed : ℚ) / (memTotal : ℚ) * 100 else 0
  { id := idx, name := card.name, util := util,
    memUsedGb := (memUsed : ℚ) / 1024 ^ 3,
    memTotalGb := (memTotal : ℚ) / 1024 ^ 3,
    memPct := memPct }

/-- `_amd_gpu_info` (ktop.py lines 610-648): AMD devices continue the id
sequence after the NVIDIA ones. -/
def amd_gpu_info (nvCount : Nat) (cards : List AmdCard) (reads : List AmdReads) :
    List GpuInfo :=
  ((cards.zip reads).enum).map (fun p => amdDeviceInfo (nvCount + p.1) p.2.1 p.2.2)

/-- `_gpu_info` (ktop.py lines 579-608): NVIDIA devices first (skipping any
device whose per-cycle NVML calls raised, modelled by a `none` sample),
then the AMD devices. -/
def gpu_info (initRes : Option Nat) (nvSamples : List (Option NvSample))
    (cards : List AmdCard) (reads : List AmdReads) : List GpuInfo :=
  (if nvidia_ok initRes then
    (nvSamples.enum).filterMap (fun p => p.2.map (nvDeviceInfo p.1))
  else []) ++ amd_gpu_info (nvidiaCount initRes) cards reads

/-! ## Supporting lemmas -/

theorem length_mhAppend (cap : Nat) (h : List ℚ) (v : ℚ) :
    (mhAppend cap h v).length = min (h.length + 1) cap := by
  simp [mhAppend]
  omega

theorem mhAppendAll_eq (cap : Nat) :
    ∀ (vs h : List ℚ), h.length ≤ cap →
      mhAppendAll cap h vs = (h ++ vs).drop ((h ++ vs).length - cap)
  | [], h, hh => by
    have h0 : h.length - cap = 0 := by omega
    simp [mhAppendAll, h0]
  | v :: tl, h, hh => by
    have hlen : (mhAppend cap h v).length ≤ cap := by
      rw [length_mhAppend]; omega
    have step : mhAppendAll cap h (v :: tl) = mhAppendAll cap (mhAppend cap h v) tl := rfl
    rw [step, mhAppendAll_eq cap tl (mhAppend cap h v) hlen]
    have hk : (h ++ [v]).length - cap ≤ (h ++ [v]).length := Nat.sub_le _ _
    rw [mhAppend, ← List.drop_append_of_le_length hk, List.drop_drop]
    have harr : (h ++ [v]) ++ tl = h ++ v :: tl := by simp
    rw [harr]
    congr 1
    simp only [length_mhAppend, List.length_drop, List.length_append, List.length_cons,
      List.length_singleton, List.length_nil]
    omega

theorem find?_map_update (prev : List (Nat × Nat)) (k v pid : Nat) (h : k ≠ pid) :
    (prev.map (fun kv => if kv.1 == k then (k, v) else kv)).find?
        (fun kv => kv.1 == pid) =
      prev.find? (fun kv => kv.1 == pid) := by
  induction prev with
  | nil => rfl
  | cons kv tl ih =>
    rw [List.map_cons]
    by_cases hk : kv.1 = k
    · rw [if_pos (by simpa using hk)]
      rw [List.find?_cons_of_neg _ (by simpa using h),
        List.find?_cons_of_neg _ (by simp [hk, h]), ih]
    · rw [if_neg (by simpa using hk)]
      by_cases hp : kv.1 = pid
      · rw [List.find?_cons_of_pos _ (by simpa using hp),
          List.find?_cons_of_pos _ (by simpa using hp)]
      · rw [List.find?_cons_of_neg _ (by simpa using hp),
          List.find?_cons_of_neg _ (by simpa using hp), ih]

theorem lookupTicks_prevInsert_ne (prev : List (Nat × Nat)) (k v pid dflt : Nat)
    (h : k ≠ pid) :
    lookupTicks (prevInsert prev k v) pid dflt = lookupTicks prev pid dflt := by
  unfold lookupTicks prevInsert
  by_cases ha : prev.any (fun kv => kv.1 == k)
  · rw [if_pos ha, find?_map_update prev k v pid h]
  · rw [if_neg ha, List.find?_append]
    have hno : List.find? (fun kv => kv.1 == pid) [(k, v)] = none := by
      simp [h]
    rw [hno, Option.or_none]

theorem mkRecord_cpu_nonneg (totalMem pageSize clockTicks : Nat) (dt : ℚ)
    (prev : List (Nat × Nat)) (s : ProcStat)
    (h : lookupTicks prev s.pid (s.utime + s.stime) ≤ s.utime + s.stime) :
    0 ≤ (mkRecord totalMem pageSize clockTicks dt prev s).cpu_percent := by
  simp only [mkRecord]
  by_cases hdt : 0 < dt
  · rw [if_pos hdt]
    have hd : (0 : ℚ) ≤
        (((s.utime + s.stime : ℤ) -
          (lookupTicks prev s.pid (s.utime + s.stime) : ℤ) : ℤ) : ℚ) := by
      have hz : (lookupTicks prev s.pid (s.utime + s.stime) : ℤ) ≤
          ((s.utime + s.stime : Nat) : ℤ) := by exact_mod_cast h
      have := sub_nonneg.mpr hz
      exact_mod_cast this
    have h1 : (0 : ℚ) ≤
        (((s.utime + s.stime : ℤ) -
          (lookupTicks prev s.pid (s.utime + s.stime) : ℤ) : ℤ) : ℚ) / (clockTicks : ℚ) :=
      div_nonneg hd (Nat.cast_nonneg _)
    have h2 := div_nonneg h1 (le_of_lt hdt)
    have h3 := mul_nonneg h2 (by norm_num : (0 : ℚ) ≤ 100)
    push_cast at h3 ⊢
    convert h3 using 2
  · rw [if_neg hdt]

theorem mkRecord_first_obs (totalMem pageSize clockTicks : Nat) (dt : ℚ)
    (prev : List (Nat × Nat)) (s : ProcStat)
    (h : prev.find? (fun kv => kv.1 == s.pid) = none) :
    (mkRecord totalMem pageSize clockTicks dt prev s).cpu_percent = 0 := by
  simp [mkRecord, lookupTicks, h]

theorem scanFold_cpu_nonneg (totalMem pageSize clockTicks : Nat) (dt : ℚ) :
    ∀ (listing : List ProcStat) (recs : List ProcRecord) (prev : List (Nat × Nat)),
      (listing.map (fun s => s.pid)).Nodup →
      (∀ s ∈ listing, lookupTicks prev s.pid (s.utime + s.stime) ≤ s.utime + s.stime) →
      (∀ r ∈ recs, 0 ≤ r.cpu_percent) →
      ∀ r ∈ (listing.foldl (scanStep totalMem pageSize clockTicks dt) (recs, prev)).1,
        0 ≤ r.cpu_percent
  | [], recs, prev, _, _, hrecs => hrecs
  | s :: tl, recs, prev, hnd, hbase, hrecs => by
    rw [List.map_cons, List.nodup_cons] at hnd
    rw [List.foldl_cons]
    simp only [scanStep]
    by_cases hs : s.pid = 0
    · rw [if_pos hs]
      exact scanFold_cpu_nonneg totalMem pageSize clockTicks dt tl recs prev hnd.2
        (fun u hu => hbase u (List.mem_cons_of_mem _ hu)) hrecs
    · rw [if_neg hs]
      apply scanFold_cpu_nonneg totalMem pageSize clockTicks dt tl _ _ hnd.2
      · intro u hu
        have hne : s.pid ≠ u.pid := by
          intro hcontra
          exact hnd.1 (by simpa [← hcontra] using List.mem_map_of_mem (fun x => x.pid) hu)
        rw [lookupTicks_prevInsert_ne _ _ _ _ _ hne]
        exact hbase u (List.mem_cons_of_mem _ hu)
      · intro r hr
        rcases List.mem_append.mp hr with hr | hr
        · exact hrecs r hr
        · rw [List.mem_singleton.mp hr]
          exact mkRecord_cpu_nonneg totalMem pageSize clockTicks dt prev s
            (hbase s (List.mem_cons_self _ _))

theorem mem_of_mem_sortTake (key : ProcRecord → ℚ) (l : List ProcRecord)
    (r : ProcRecord) (h : r ∈ (sortByKeyDesc key l).take 10) : r ∈ l :=
  (List.mem_insertionSort _).mp (List.mem_of_mem_take h)

/-- Ranking order of the output lists: descending key, and for equal keys
the earlier (smaller-pid, when the listing was ascending) record first. -/
def rankedBefore (key : ProcRecord → ℚ) (x y : ProcRecord) : Prop :=
  key y ≤ key x ∧ (key x = key y → x.pid < y.pid)

theorem orderedInsert_rankedBefore (key : ProcRecord → ℚ) (a : ProcRecord) :
    ∀ m : List ProcRecord, m.Pairwise (rankedBefore key) →
      (∀ b ∈ m, a.pid < b.pid) →
      (List.orderedInsert (fun x y => key y ≤ key x) a m).Pairwise (rankedBefore key)
  | [], _, _ => by simp [List.orderedInsert, List.pairwise_singleton, rankedBefore]
  | b :: m, hp, hpid => by
    rw [List.pairwise_cons] at hp
    rw [List.orderedInsert]
    by_cases hab : key b ≤ key a
    · rw [if_pos hab]
      rw [List.pairwise_cons]
      refine ⟨?_, List.pairwise_cons.mpr hp⟩
      intro x hx
      rcases List.mem_cons.mp hx with rfl | hx
      · exact ⟨hab, fun _ => hpid x (List.mem_cons_self _ _)⟩
      · exact ⟨le_trans (hp.1 x hx).1 hab, fun _ => hpid x (List.mem_cons_of_mem _ hx)⟩
    · rw [if_neg hab]
      have hba : key a < key b := lt_of_not_le hab
      rw [List.pairwise_cons]
      constructor
      · intro x hx
        rcases (List.mem_orderedInsert _).mp hx with rfl | hx
        · exact ⟨le_of_lt hba, fun hxx => absurd hxx (ne_of_gt hba)⟩
        · exact hp.1 x hx
      · exact orderedInsert_rankedBefore key a m hp.2
          (fun x hx => hpid x (List.mem_cons_of_mem _ hx))

/-- Stability of the model of Python's `sorted(..., reverse=True)`: when the
input has strictly increasing pids, the sorted output is pairwise ordered by
descending key with ties in ascending pid order. -/
theorem insertionSort_rankedBefore (key : ProcRecord → ℚ) :
    ∀ l : List ProcRecord, l.Pairwise (fun a b => a.pid < b.pid) →
      (List.insertionSort (fun x y => key y ≤ key x) l).Pairwise (rankedBefore key)
  | [], _ => by simp
  | a :: l, hp => by
    rw [List.pairwise_cons] at hp
    rw [List.insertionSort]
    exact orderedInsert_rankedBefore key a _
      (insertionSort_rankedBefore key l hp.2)
      (fun b hb => hp.1 b ((List.mem_insertionSort _).mp hb))

theorem scanFold_pairwise_pid (totalMem pageSize clockTicks : Nat) (dt : ℚ) :
    ∀ (listing : List ProcStat) (recs : List ProcRecord) (prev : List (Nat × Nat)),
      listing.Pairwise (fun s u => s.pid < u.pid) →
      recs.Pairwise (fun a b => a.pid < b.pid) →
      (∀ r ∈ recs, ∀ u ∈ listing, r.pid < u.pid) →
      (listing.foldl (scanStep totalMem pageSize clockTicks dt) (recs, prev)).1.Pairwise
        (fun a b => a.pid < b.pid)
  | [], recs, prev, _, hrecs, _ => hrecs
  | s :: tl, recs, prev, hl, hrecs, hcross => by
    rw [List.pairwise_cons] at hl
    rw [List.foldl_cons]
    simp only [scanStep]
    by_cases hs : s.pid = 0
    · rw [if_pos hs]
      exact scanFold_pairwise_pid totalMem pageSize clockTicks dt tl recs prev hl.2
        hrecs (fun r hr u hu => hcross r hr u (List.mem_cons_of_mem _ hu))
    · rw [if_neg hs]
      apply scanFold_pairwise_pid totalMem pageSize clockTicks dt tl _ _ hl.2
      · rw [List.pairwise_append]
        refine ⟨hrecs, List.pairwise_singleton _ _, ?_⟩
        intro a ha b hb
        rw [List.mem_singleton.mp hb]
        exact hcross a ha s (List.mem_cons_self _ _)
      · intro r hr u hu
        rcases List.mem_append.mp hr with hr | hr
        · exact hcross r hr u (List.mem_cons_of_mem _ hu)
        · rw [List.mem_singleton.mp hr]
          exact hl.1 u hu

instance instIsTotalKeyDesc (key : ProcRecord → ℚ) :
    IsTotal ProcRecord (fun a b => key b ≤ key a) :=
  ⟨fun a b => le_total (key b) (key a)⟩

instance instIsTransKeyDesc (key : ProcRecord → ℚ) :
    IsTrans ProcRecord (fun a b => key b ≤ key a) :=
  ⟨fun _ _ _ h1 h2 => le_trans h2 h1⟩

theorem sortByKeyDesc_sorted (key : ProcRecord → ℚ) (l : List ProcRecord) :
    (sortByKeyDesc key l).Pairwise (fun a b => key b ≤ key a) :=
  List.sorted_insertionSort _ l

/-- The running-current update shared by `cpuStep` and `memStep`. -/
def curUpd (c : Option ℚ) (s : Sensor) : Option ℚ :=
  match c with
  | none => some s.current
  | some c0 => if c0 < s.current then some s.current else some c0

theorem foldl_keys_eq (step : Option ℚ × ℚ → Sensor → Option ℚ × ℚ)
    (d : List (String × List Sensor)) :
    ∀ (keys : List String) (acc : Option ℚ × ℚ),
      keys.foldl (fun acc k => (sensorsFor d k).foldl step acc) acc =
        (groupSensors keys d).foldl step acc
  | [], _ => rfl
  | k :: tl, acc => by
    rw [List.foldl_cons, foldl_keys_eq step d tl]
    simp only [groupSensors, List.map_cons, List.flatten_cons, List.foldl_append]

theorem foldl_fst_curUpd (step : Option ℚ × ℚ → Sensor → Option ℚ × ℚ)
    (hstep : ∀ acc s, (step acc s).1 = curUpd acc.1 s) :
    ∀ (l : List Sensor) (acc : Option ℚ × ℚ),
      (l.foldl step acc).1 = l.foldl curUpd acc.1
  | [], _ => rfl
  | s :: tl, acc => by
    rw [List.foldl_cons, List.foldl_cons, foldl_fst_curUpd step hstep tl, hstep]

theorem foldl_curUpd_some (l : List Sensor) : ∀ c0 : ℚ,
    ∃ m, l.foldl curUpd (some c0) = some m ∧ c0 ≤ m ∧
      (m = c0 ∨ ∃ s ∈ l, s.current = m) ∧ ∀ s ∈ l, s.current ≤ m := by
  induction l with
  | nil => exact fun c0 => ⟨c0, rfl, le_refl _, Or.inl rfl, by simp⟩
  | cons s tl ih =>
    intro c0
    have hc : ∃ c1, curUpd (some c0) s = some c1 ∧ c0 ≤ c1 ∧ s.current ≤ c1 ∧
        (c1 = c0 ∨ c1 = s.current) := by
      unfold curUpd
      by_cases h : c0 < s.current
      · exact ⟨s.current, by simp [curUpd, h], le_of_lt h, le_refl _, Or.inr rfl⟩
      · exact ⟨c0, by simp [curUpd, h], le_refl _, le_of_not_lt h, Or.inl rfl⟩
    obtain ⟨c1, hce, hc0, hsc, hor⟩ := hc
    obtain ⟨m, hm, hc1m, hatt, hall⟩ := ih c1
    refine ⟨m, ?_, le_trans hc0 hc1m, ?_, ?_⟩
    · rw [List.foldl_cons, hce, hm]
    · rcases hatt with rfl | ⟨u, hu, hh⟩
      · rcases hor with hh | hh
        · exact Or.inl hh
        · exact Or.inr ⟨s, List.mem_cons_self _ _, hh.symm⟩
      · exact Or.inr ⟨u, List.mem_cons_of_mem _ hu, hh⟩
    · intro u hu
      rcases List.mem_cons.mp hu with rfl | hu
      · exact le_trans hsc hc1m
      · exact hall u hu

theorem foldl_curUpd_none (l : List Sensor) (hne : l ≠ []) :
    ∃ m, l.foldl curUpd none = some m ∧
      (∃ s ∈ l, s.current = m) ∧ ∀ s ∈ l, s.current ≤ m := by
  cases l with
  | nil => exact absurd rfl hne
  | cons s tl =>
    rw [List.foldl_cons]
    show ∃ m, tl.foldl curUpd (some s.current) = some m ∧ _
    obtain ⟨m, hm, hcm, hatt, hall⟩ := foldl_curUpd_some tl s.current
    refine ⟨m, hm, ?_, ?_⟩
    · rcases hatt with rfl | ⟨u, hu, hh⟩
      · exact ⟨s, List.mem_cons_self _ _, rfl⟩
      · exact ⟨u, List.mem_cons_of_mem _ hu, hh⟩
    · intro u hu
      rcases List.mem_cons.mp hu with rfl | hu
      · exact hcm
      · exact hall u hu

theorem cpuStep_snd_le (acc : Option ℚ × ℚ) (s : Sensor) : acc.2 ≤ (cpuStep acc s).2 := by
  simp only [cpuStep]
  by_cases h1 : (truthy s.critical && decide (acc.2 < s.critical.getD 0)) = true
  · rw [if_pos h1]
    have h1' : truthy s.critical = true ∧ decide (acc.2 < s.critical.getD 0) = true := by
      simpa [Bool.and_eq_true] using h1
    exact le_of_lt (of_decide_eq_true h1'.2)
  · rw [if_neg h1]
    by_cases h2 : (truthy s.high && decide (acc.2 < s.high.getD 0)) = true
    · rw [if_pos h2]
      have h2' : truthy s.high = true ∧ decide (acc.2 < s.high.getD 0) = true := by
        simpa [Bool.and_eq_true] using h2
      exact le_of_lt (of_decide_eq_true h2'.2)
    · rw [if_neg h2]

theorem foldl_cpuStep_snd_le :
    ∀ (l : List Sensor) (acc : Option ℚ × ℚ), acc.2 ≤ (l.foldl cpuStep acc).2
  | [], _ => le_refl _
  | s :: tl, acc => by
    rw [List.foldl_cons]
    exact le_trans (cpuStep_snd_le acc s) (foldl_cpuStep_snd_le tl _)

theorem foldl_memStep_snd (l : List Sensor) :
    ∀ acc : Option ℚ × ℚ, (∀ s ∈ l, truthy s.critical = false) →
      (l.foldl memStep acc).2 = acc.2 := by
  induction l with
  | nil => exact fun _ _ => rfl
  | cons s tl ih =>
    intro acc hall
    rw [List.foldl_cons, ih _ (fun u hu => hall u (List.mem_cons_of_mem _ hu))]
    simp [memStep, hall s (List.mem_cons_self _ _)]

/-! ## Claims -/

/-- C1: per-process CPU attribution follows
`cpu_pct = (Δticks / ticks_per_second) / Δwall_time * 100` with `Δticks`
taken against the stored per-pid baseline, for every scan with positive
elapsed wall time; and in the concrete scenario (P1 ticks 100→140 over 1
time unit at 100 ticks/second, P2 ticks unchanged) P1 gets 40.0, P2 gets
0.0 and the CPU ranking places P1 before P2. -/
theorem c1_cpu_attribution :
    (∀ (totalMem pageSize clockTicks : Nat) (dt : ℚ) (prev : List (Nat × Nat))
        (s : ProcStat), 0 < dt →
        (mkRecord totalMem pageSize clockTicks dt prev s).cpu_percent =
          (((s.utime + s.stime : ℚ) -
              (lookupTicks prev s.pid (s.utime + s.stime) : ℚ)) / (clockTicks : ℚ))
            / dt * 100) ∧
    (scanProcs 1000 1 100 1 [(1, 100), (2, 50)]
        [⟨1, "P1", 140, 0, 0⟩, ⟨2, "P2", 50, 0, 0⟩]).byCpu.map
      (fun r => (r.pid, r.cpu_percent)) = [(1, 40), (2, 0)] := by
  constructor
  · intro totalMem pageSize clockTicks dt prev s hdt
    simp only [mkRecord, if_pos hdt]
    push_cast
    ring
  · norm_num [scanProcs, scanStep, mkRecord, lookupTicks, prevInsert, sortByKeyDesc,
      List.insertionSort, List.orderedInsert]

/-- C1 witness: the formula part of `c1_cpu_attribution` instantiated at a
concrete scan with `dt = 1`. -/
theorem c1_cpu_attribution_witness :
    (0 : ℚ) < 1 ∧
      (mkRecord 1000 1 100 1 [(1, 100)] ⟨1, "w", 140, 0, 0⟩).cpu_percent = 40 := by
  refine ⟨by norm_num, ?_⟩
  have h := c1_cpu_attribution.1 1000 1 100 1 [(1, 100)] ⟨1, "w", 140, 0, 0⟩ (by norm_num)
  rw [h]
  norm_num [lookupTicks]

/-- C3: appending N values to a fresh history of capacity C leaves exactly
the `min N C` most recent values in insertion order; appending always
succeeds (the function is total), and on a full buffer of positive capacity
the append evicts exactly the oldest sample. -/
theorem c3_metric_history (cap : Nat) (vs : List ℚ) :
    (mhAppendAll cap [] vs).length = min vs.length cap ∧
    mhAppendAll cap [] vs = vs.drop (vs.length - cap) ∧
    (∀ (h : List ℚ) (v : ℚ), 0 < cap → h.length = cap →
      mhAppend cap h v = h.drop 1 ++ [v]) := by
  have hmain : mhAppendAll cap [] vs = vs.drop (vs.length - cap) := by
    simpa using mhAppendAll_eq cap vs [] (by simp)
  refine ⟨?_, hmain, ?_⟩
  · rw [hmain, List.length_drop]; omega
  · intro h v hcap hfull
    have h1 : (h ++ [v]).length - cap = 1 := by simp [hfull]
    rw [mhAppend, h1, List.drop_append_of_le_length (by omega)]

/-- C3 witness: capacity 3, five appends, and one eviction on a full buffer. -/
theorem c3_metric_history_witness :
    (mhAppendAll 3 [] [1, 2, 3, 4, 5]).length = min 5 3 ∧
    mhAppendAll 3 [] ([1, 2, 3, 4, 5] : List ℚ) = [3, 4, 5] ∧
    mhAppend 3 [9, 8, 7] 6 = [8, 7, 6] := by
  have h := c3_metric_history 3 [1, 2, 3, 4, 5]
  exact ⟨h.1, h.2.1, by simpa using h.2.2 [9, 8, 7] 6 (by norm_num) (by simp)⟩

/-- C4: the network sampler is total; with non-positive measured Δtime the
divisor is guarded to 1 so each returned rate is Δbytes/1, with positive
Δtime each returned rate is Δbytes/Δtime, and the stored peak
`net_max_speed` never decreases across a call. -/
theorem c4_net_sample (st : NetState) (sent recv now : ℚ) :
    (0 < now - st.lastTime →
      (sample_net st sent recv now).1 =
        ((sent - st.lastSent) / (now - st.lastTime),
         (recv - st.lastRecv) / (now - st.lastTime))) ∧
    (now - st.lastTime ≤ 0 →
      (sample_net st sent recv now).1 = (sent - st.lastSent, recv - st.lastRecv)) ∧
    st.netMaxSpeed ≤ (sample_net st sent recv now).2.netMaxSpeed := by
  refine ⟨?_, ?_, ?_⟩
  · intro hpos
    simp only [sample_net]
    rw [if_neg (by linarith)]
  · intro hnp
    simp only [sample_net]
    rw [if_pos hnp]
    simp
  · simp only [sample_net]
    exact le_max_of_le_left (le_max_of_le_left (le_max_left _ _))

/-- C4 witness: the spec scenario, sent 1000→2000 and recv 500→500 over
0.5 time units gives rates (2000, 0), and a clock anomaly (Δtime = 0)
gives rates Δbytes/1 without error; peak never drops. -/
theorem c4_net_sample_witness :
    ((0 : ℚ) < (11 / 2 : ℚ) - 5 ∧
      (sample_net ⟨1000, 500, 5, 1, [], []⟩ 2000 500 (11 / 2)).1 = (2000, 0)) ∧
    (((5 : ℚ) - 5 ≤ 0) ∧
      (sample_net ⟨1000, 500, 5, 1, [], []⟩ 2000 500 5).1 = (1000, 0)) ∧
    (1 : ℚ) ≤ (sample_net ⟨1000, 500, 5, 1, [], []⟩ 2000 500 (11 / 2)).2.netMaxSpeed := by
  refine ⟨⟨by norm_num, ?_⟩, ⟨by norm_num, ?_⟩, ?_⟩
  · have h := (c4_net_sample ⟨1000, 500, 5, 1, [], []⟩ 2000 500 (11 / 2)).1 (by norm_num)
    rw [h]; norm_num
  · have h := (c4_net_sample ⟨1000, 500, 5, 1, [], []⟩ 2000 500 5).2.1 (by norm_num)
    rw [h]; norm_num
  · exact (c4_net_sample ⟨1000, 500, 5, 1, [], []⟩ 2000 500 (11 / 2)).2.2

/-- C10: every memory-percentage computation at the collector interface is
total in the zero-total case: an NVIDIA device reporting zero total memory,
an AMD card whose cached VRAM total is zero, and a process scanned with
zero reported total system memory all yield `mem_pct = 0` rather than a
division error. -/
theorem c10_mem_pct_total (i : Nat) (nm : String) (util : ℚ) (used : Nat)
    (cardName : String) (hu hv ht hc : Bool) (r : AmdReads)
    (pageSize clockTicks : Nat) (dt : ℚ) (prev : List (Nat × Nat)) (s : ProcStat) :
    (nvDeviceInfo i ⟨nm, util, used, 0⟩).memPct = 0 ∧
    (amdDeviceInfo i ⟨cardName, hu, hv, 0, ht, hc⟩ r).memPct = 0 ∧
    (mkRecord 0 pageSize clockTicks dt prev s).memory_percent = 0 := by
  refine ⟨by simp [nvDeviceInfo], by simp [amdDeviceInfo], by simp [mkRecord]⟩

/-- C5: on a non-throttled check, when both the kernel query and the
daemon query produce a match, the one with the strictly later timestamp
wins; when neither produces a match the result is no event, and that
no-event outcome is also what gets cached (a normal state, not an error). -/
theorem c5_oom_later_wins (st : OomState) (now tk td : ℚ) (nk no : String)
    (h5 : 5 ≤ now - st.lastCheck) :
    (td < tk →
      (check_oom st now (some (tk, nk)) (some (td, no))).1 = some (tk, nk)) ∧
    (tk < td →
      (check_oom st now (some (tk, nk)) (some (td, no))).1 = some (td, no)) ∧
    (check_oom st now none none).1 = none ∧
    (check_oom st now none none).2.lastStr = none := by
  have hng : ¬ now - st.lastCheck < 5 := not_lt.mpr h5
  refine ⟨?_, ?_, ?_, ?_⟩
  · intro hlt
    simp only [check_oom, if_neg hng, check_oom_fresh, oomCandidates,
      List.insertionSort, List.orderedInsert]
    rw [if_pos (le_of_lt hlt)]
    simp
  · intro hlt
    simp only [check_oom, if_neg hng, check_oom_fresh, oomCandidates,
      List.insertionSort, List.orderedInsert]
    rw [if_neg (not_le.mpr hlt)]
    simp
  · simp [check_oom, if_neg hng, check_oom_fresh, oomCandidates]
  · simp [check_oom, if_neg hng, check_oom_fresh, oomCandidates]

/-- C5 witness: with the throttle satisfied, a kernel match at epoch 30
beats a daemon match at epoch 20, and the symmetric case. -/
theorem c5_oom_later_wins_witness :
    (5 : ℚ) ≤ 10 - 0 ∧
    (check_oom ⟨0, none⟩ 10 (some (30, "k")) (some (20, "d"))).1 = some (30, "k") ∧
    (check_oom ⟨0, none⟩ 10 (some (20, "k")) (some (30, "d"))).1 = some (30, "d") ∧
    (check_oom ⟨0, none⟩ 10 none none).1 = none := by
  refine ⟨by norm_num, ?_, ?_, ?_⟩
  · exact (c5_oom_later_wins ⟨0, none⟩ 10 30 20 "k" "d" (by norm_num)).1 (by norm_num)
  · exact (c5_oom_later_wins ⟨0, none⟩ 10 20 30 "k" "d" (by norm_num)).2.1 (by norm_num)
  · exact (c5_oom_later_wins ⟨0, none⟩ 10 0 0 "" "" (by norm_num)).2.2.1

/-- C6: when the NVML library is absent or fails to initialize (`initRes =
none`) and no platform device entry carries the AMD vendor id `0x1002`,
GPU enumeration yields no devices: the AMD detection returns the empty
list, the device count is zero, `nvidia_ok` is false, and a sampling cycle
returns the empty device list instead of raising. -/
theorem c6_gpu_enumerate_empty (cards : List CardFs)
    (nvSamples : List (Option NvSample)) (reads : List AmdReads)
    (hv : ∀ c ∈ cards, c.vendor ≠ some "0x1002") :
    detect_amd_gpus cards = [] ∧
    nvidia_ok none = false ∧
    gpu_count none cards = 0 ∧
    gpu_info none nvSamples (detect_amd_gpus cards) reads = [] := by
  have hdet : detect_amd_gpus cards = [] := by
    rw [detect_amd_gpus, List.filterMap_eq_nil_iff]
    intro c hc
    rw [if_neg (hv c hc)]
  refine ⟨hdet, rfl, ?_, ?_⟩
  · simp [gpu_count, nvidiaCount, hdet]
  · simp [gpu_info, nvidia_ok, nvidiaCount, amd_gpu_info, hdet]

/-- C6 witness: a host with one non-AMD platform device entry and a failed
NVML init enumerates zero GPUs. -/
theorem c6_gpu_enumerate_empty_witness :
    detect_amd_gpus
        [⟨some "0x10de", none, none, none, false, false, false, none, none,
          false, false⟩] = [] ∧
    gpu_count none
        [⟨some "0x10de", none, none, none, false, false, false, none, none,
          false, false⟩] = 0 := by
  have h := c6_gpu_enumerate_empty
    [⟨some "0x10de", none, none, none, false, false, false, none, none, false, false⟩]
    [] [] (by intro c hc; simp at hc; subst hc; simp)
  exact ⟨h.1, h.2.2.1⟩

/-- C2 counterexample: the claim asserts `cpu_pct ≥ 0` for every record of
every scan, including across pid reuse.  But when pid 7 held baseline 140
from the previous scan and the pid now belongs to a new process whose
cumulative ticks are only 100, the scan emits `cpu_pct = -40 < 0`: the
baseline is only pruned for pids absent at scan time, so a reused pid
inherits the dead process's larger baseline and the delta goes negative. -/
theorem c2_counterexample :
    (scanProcs 1000 1 100 1 [(7, 140)] [⟨7, "reused", 100, 0, 0⟩]).byCpu.map
        (fun r => r.cpu_percent) = [-40] ∧ (-40 : ℚ) < 0 := by
  constructor
  · norm_num [scanProcs, scanStep, mkRecord, lookupTicks, prevInsert, sortByKeyDesc,
      List.insertionSort, List.orderedInsert]
  · norm_num

/-- C9 counterexample: the claim asserts that when both log queries fail on
a refresh cycle, a previously detected event is retained.  With a cached
event `(1, "firefox")` and a refresh at `now = 10` (past the 5-unit
throttle) where both queries contribute nothing, `_check_oom` overwrites
the cache with `None` and reports no event, rather than retaining the
previous value. -/
theorem c9_counterexample :
    (⟨0, some (1, "firefox")⟩ : OomState).lastStr = some (1, "firefox") ∧
    (check_oom ⟨0, some (1, "firefox")⟩ 10 none none).1 ≠ some (1, "firefox") ∧
    (check_oom ⟨0, some (1, "firefox")⟩ 10 none none).1 = none ∧
    (check_oom ⟨0, some (1, "firefox")⟩ 10 none none).2.lastStr = none := by
  have h : (check_oom ⟨0, some (1, "firefox")⟩ 10 none none) = (none, ⟨10, none⟩) := by
    norm_num [check_oom, check_oom_fresh, oomCandidates]
  refine ⟨rfl, ?_, ?_, ?_⟩ <;> simp [h]

/-- C2 amended: every record of a scan has `cpu_pct ≥ 0` provided no
observed pid carries a stored baseline above its current cumulative ticks
(pid reuse that lowers the tick count is exactly the excluded case, shown
negative in the counterexample); and on first observation of a pid the
baseline is seeded with the current tick value, so the record shows
`cpu_pct = 0` — no spurious spike. -/
theorem c2_cpu_pct_nonneg_amended (totalMem pageSize clockTicks : Nat) (dt : ℚ)
    (prev : List (Nat × Nat)) (listing : List ProcStat)
    (hnd : (listing.map (fun s => s.pid)).Nodup)
    (hbase : ∀ s ∈ listing,
      lookupTicks prev s.pid (s.utime + s.stime) ≤ s.utime + s.stime) :
    (∀ r ∈ (scanProcs totalMem pageSize clockTicks dt prev listing).byCpu,
      0 ≤ r.cpu_percent) ∧
    (∀ r ∈ (scanProcs totalMem pageSize clockTicks dt prev listing).byMem,
      0 ≤ r.cpu_percent) ∧
    (∀ s : ProcStat, prev.find? (fun kv => kv.1 == s.pid) = none →
      (mkRecord totalMem pageSize clockTicks dt prev s).cpu_percent = 0) := by
  have hall := scanFold_cpu_nonneg totalMem pageSize clockTicks dt listing [] prev
    hnd hbase (by simp)
  refine ⟨?_, ?_, ?_⟩
  · intro r hr
    exact hall r (mem_of_mem_sortTake _ _ r hr)
  · intro r hr
    exact hall r (mem_of_mem_sortTake _ _ r hr)
  · intro s hs
    exact mkRecord_first_obs totalMem pageSize clockTicks dt prev s hs

/-- C2 amended witness: a pid observed for the first time (empty baseline
dict) gets `cpu_pct = 0`. -/
theorem c2_cpu_pct_nonneg_amended_witness :
    (mkRecord 1000 1 100 1 [] ⟨5, "w2", 7, 0, 0⟩).cpu_percent = 0 :=
  (c2_cpu_pct_nonneg_amended 1000 1 100 1 [] [⟨5, "w2", 7, 0, 0⟩]
    (by simp) (by simp [lookupTicks])).2.2 ⟨5, "w2", 7, 0, 0⟩ rfl

/-- C7 counterexample: the claim asserts that records with equal metric
values are ordered by ascending pid.  But the source breaks ties only by
the stability of `sorted`, i.e. by `/proc` enumeration order: a listing
that enumerates pid 5 before pid 3, both with identical CPU and memory
metrics, yields both top-10 lists in the order 5, 3 — a tie in descending
pid order. -/
theorem c7_counterexample :
    ((scanProcs 1000 1 100 1 [(5, 100), (3, 100)]
        [⟨5, "pa", 100, 0, 0⟩, ⟨3, "pb", 100, 0, 0⟩]).byCpu.map
      (fun r => (r.pid, r.cpu_percent)) = [(5, 0), (3, 0)]) ∧
    ((scanProcs 1000 1 100 1 [(5, 100), (3, 100)]
        [⟨5, "pa", 100, 0, 0⟩, ⟨3, "pb", 100, 0, 0⟩]).byMem.map
      (fun r => (r.pid, r.memory_percent)) = [(5, 0), (3, 0)]) ∧
    ¬ (5 : Nat) < 3 := by
  refine ⟨?_, ?_, by norm_num⟩ <;>
    norm_num [scanProcs, scanStep, mkRecord, lookupTicks, prevInsert, sortByKeyDesc,
      List.insertionSort, List.orderedInsert]

/-- C7 amended: both top-10 lists are always ordered descending by their
ranking metric; ties keep the `/proc` enumeration order (Python's `sorted`
is stable), so whenever the OS lists pids in ascending order — as Linux
procfs does — tied records appear in ascending pid order, and the output
is a deterministic function of the listing and the collector state. -/
theorem c7_ranking_amended (totalMem pageSize clockTicks : Nat) (dt : ℚ)
    (prev : List (Nat × Nat)) (listing : List ProcStat) :
    ((scanProcs totalMem pageSize clockTicks dt prev listing).byCpu.Pairwise
      (fun a b => b.cpu_percent ≤ a.cpu_percent)) ∧
    ((scanProcs totalMem pageSize clockTicks dt prev listing).byMem.Pairwise
      (fun a b => b.memory_percent ≤ a.memory_percent)) ∧
    (listing.Pairwise (fun s u => s.pid < u.pid) →
      (scanProcs totalMem pageSize clockTicks dt prev listing).byCpu.Pairwise
        (rankedBefore (fun p => p.cpu_percent)) ∧
      (scanProcs totalMem pageSize clockTicks dt prev listing).byMem.Pairwise
        (rankedBefore (fun p => p.memory_percent))) := by
  refine ⟨?_, ?_, ?_⟩
  · exact List.Pairwise.sublist (List.take_sublist _ _) (sortByKeyDesc_sorted _ _)
  · exact List.Pairwise.sublist (List.take_sublist _ _) (sortByKeyDesc_sorted _ _)
  · intro hl
    have hrecs := scanFold_pairwise_pid totalMem pageSize clockTicks dt listing [] prev
      hl (by simp) (by simp)
    exact ⟨List.Pairwise.sublist (List.take_sublist _ _)
        (insertionSort_rankedBefore _ _ hrecs),
      List.Pairwise.sublist (List.take_sublist _ _)
        (insertionSort_rankedBefore _ _ hrecs)⟩

/-- C7 amended witness: an ascending-pid listing produces a CPU ranking
that is descending in the metric with ties ascending by pid. -/
theorem c7_ranking_amended_witness :
    (scanProcs 1000 1 100 1 [] [⟨1, "w7a", 0, 0, 0⟩, ⟨2, "w7b", 0, 0, 5⟩]).byCpu.Pairwise
      (rankedBefore (fun p => p.cpu_percent)) :=
  ((c7_ranking_amended 1000 1 100 1 [] [⟨1, "w7a", 0, 0, 0⟩, ⟨2, "w7b", 0, 0, 5⟩]).2.2
    (by norm_num [List.pairwise_cons])).1

/-- C8 counterexample: the claim's threshold priority (sensor critical if
present, else high, else fallback) disagrees with the source on both
groups.  A CPU sensor reporting critical 90 °C is ignored because the code
only raises the threshold above the 100 °C fallback, which acts as a floor
rather than a last resort; and a memory sensor reporting only a high value
of 80 °C leaves the 85 °C fallback in place because the code never consults
`high` for the memory group. -/
theorem c8_counterexample :
    (sample_cpu_temps [("coretemp", [⟨50, none, some 90⟩])] = (some 50, 100) ∧
      spec_group_threshold cpuSensorKeys [("coretemp", [⟨50, none, some 90⟩])] 100 = 90) ∧
    (sample_mem_temps [("SODIMM", [⟨40, some 80, none⟩])] = (some 40, 85) ∧
      spec_group_threshold memSensorKeys [("SODIMM", [⟨40, some 80, none⟩])] 85 = 80) ∧
    (100 : ℚ) ≠ 90 ∧ (85 : ℚ) ≠ 80 := by
  refine ⟨⟨?_, ?_⟩, ⟨?_, ?_⟩, by norm_num, by norm_num⟩
  · simp [sample_cpu_temps, cpuSensorKeys, sensorsFor, cpuStep, truthy]
    norm_num
  · simp [spec_group_threshold, groupSensors, cpuSensorKeys, sensorsFor]
  · simp [sample_mem_temps, memSensorKeys, sensorsFor, memStep, truthy]
  · simp [spec_group_threshold, groupSensors, memSensorKeys, sensorsFor]

/-- C8 amended: for each group the reported temperature is the maximum
current reading across the group's sensors (absent when the group has no
sensors).  The CPU threshold starts at the 100 °C platform fallback, which
acts as a floor: each sensor raises it to its critical value when that is
truthy and greater, else to its high value when that is truthy and greater,
so it is always at least 100.  The memory threshold stays at the 85 °C
fallback unless some sensor reports a truthy critical value (high is never
consulted for the memory group). -/
theorem c8_thermal_amended (d : List (String × List Sensor)) :
    (groupSensors cpuSensorKeys d = [] → sample_cpu_temps d = (none, 100)) ∧
    (groupSensors cpuSensorKeys d ≠ [] →
      ∃ m, (sample_cpu_temps d).1 = some m ∧
        (∃ s ∈ groupSensors cpuSensorKeys d, s.current = m) ∧
        ∀ s ∈ groupSensors cpuSensorKeys d, s.current ≤ m) ∧
    100 ≤ (sample_cpu_temps d).2 ∧
    ((∀ s ∈ groupSensors memSensorKeys d, truthy s.critical = false) →
      (sample_mem_temps d).2 = 85) ∧
    (groupSensors memSensorKeys d ≠ [] →
      ∃ m, (sample_mem_temps d).1 = some m ∧
        (∃ s ∈ groupSensors memSensorKeys d, s.current = m) ∧
        ∀ s ∈ groupSensors memSensorKeys d, s.current ≤ m) := by
  have hcpu : sample_cpu_temps d = (groupSensors cpuSensorKeys d).foldl cpuStep (none, 100) :=
    foldl_keys_eq cpuStep d cpuSensorKeys (none, 100)
  have hmem : sample_mem_temps d = (groupSensors memSensorKeys d).foldl memStep (none, 85) :=
    foldl_keys_eq memStep d memSensorKeys (none, 85)
  have hcpu1 : (sample_cpu_temps d).1 = (groupSensors cpuSensorKeys d).foldl curUpd none := by
    rw [hcpu]
    exact foldl_fst_curUpd cpuStep (fun _ _ => rfl) _ _
  have hmem1 : (sample_mem_temps d).1 = (groupSensors memSensorKeys d).foldl curUpd none := by
    rw [hmem]
    exact foldl_fst_curUpd memStep (fun _ _ => rfl) _ _
  refine ⟨?_, ?_, ?_, ?_, ?_⟩
  · intro he
    rw [hcpu, he]
    rfl
  · intro hne
    obtain ⟨m, hm, hatt, hall⟩ := foldl_curUpd_none (groupSensors cpuSensorKeys d) hne
    exact ⟨m, by rw [hcpu1, hm], hatt, hall⟩
  · rw [hcpu]
    exact foldl_cpuStep_snd_le _ _
  · intro hall
    rw [hmem]
    exact foldl_memStep_snd _ _ hall
  · intro hne
    obtain ⟨m, hm, hatt, hall⟩ := foldl_curUpd_none (groupSensors memSensorKeys d) hne
    exact ⟨m, by rw [hmem1, hm], hatt, hall⟩

/-- C8 amended witness: a memory sensor with only a high threshold leaves
the memory threshold at the 85 °C fallback. -/
theorem c8_thermal_amended_witness :
    (sample_mem_temps [("SODIMM", [⟨40, some 80, none⟩])]).2 = 85 :=
  (c8_thermal_amended [("SODIMM", [⟨40, some 80, none⟩])]).2.2.2.1
    (by simp [groupSensors, memSensorKeys, sensorsFor, truthy])

/-- C9 amended: a transient failure of both queries never propagates past
the collector (both queries are caught and merely contribute no candidate,
and `check_oom` is total); within the 5-time-unit throttle window the
cached last value is returned unchanged; but on a refresh cycle where both
queries fail or match nothing, the cached event is cleared and the watcher
reports no event — the last known value is not retained across a failed
refresh. -/
theorem c9_oom_retention_amended (st : OomState) (now : ℚ)
    (kernel oomd : Option (ℚ × String)) :
    (now - st.lastCheck < 5 → check_oom st now kernel oomd = (st.lastStr, st)) ∧
    (5 ≤ now - st.lastCheck →
      (check_oom st now none none).1 = none ∧
      (check_oom st now none none).2.lastStr = none) := by
  constructor
  · intro h
    simp [check_oom, if_pos h]
  · intro h
    constructor <;>
      simp [check_oom, if_neg (not_lt.mpr h), check_oom_fresh, oomCandidates]

/-- C9 amended witness: a throttled call returns the cached event unchanged,
and a failed refresh reports no event. -/
theorem c9_oom_retention_amended_witness :
    ((3 : ℚ) - 0 < 5 ∧
      check_oom ⟨0, some (1, "firefox2")⟩ 3 none none =
        (some (1, "firefox2"), ⟨0, some (1, "firefox2")⟩)) ∧
    ((5 : ℚ) ≤ 10 - 0 ∧ (check_oom ⟨0, some (1, "firefox2")⟩ 10 none none).1 = none) := by
  refine ⟨⟨by norm_num, ?_⟩, ⟨by norm_num, ?_⟩⟩
  · exact (c9_oom_retention_amended ⟨0, some (1, "firefox2")⟩ 3 none none).1 (by norm_num)
  · exact ((c9_oom_retention_amended ⟨0, some (1, "firefox2")⟩ 10 none none).2
      (by norm_num)).1

end Ktop
